import Mathlib

/-!
Shallow embedding of the multi-policy fetch dispatcher and cache maintainer
implemented in `src/production/ProductionServiceWorker.js` (mirrored by
`sw.js`), together with theorems settling the spec claims about it.

Modelling conventions:
* A cache partition is an association list from URL strings to stored
  responses; the browser Cache Storage API keys each partition by request,
  so `cachePut` replaces any existing entry for the same URL.
* Response metadata headers (`X-Cache-Timestamp`, `X-Signature`,
  `X-Conditional-Bypass`) are explicit `Option` fields of the response.
* A network fetch outcome is `Except String Response`: `.error` models the
  fetch promise rejecting, `.ok r` a response delivered (whose `r.ok` flag
  may still be `false`).
* Each request handler takes the outcome of the (at most one) fetch it may
  perform as an oracle argument, plus the current clock `now` in epoch
  milliseconds, and returns the response given to the caller, the partition
  state after its synchronous writes, and a `Bool` flag (whether a network
  fetch occurred, for the asset handler, or whether a detached background
  refresh was spawned, for the others).  Detached background refreshes are
  modelled as separate functions from fetch outcome and partition to
  partition, mirroring the `async` helpers they embed.
-/

namespace Alf

abbrev Url := String

/-- A stored response: the `ok` status flag, an abstract body, and the three
synthetic metadata headers the service worker reads and writes. -/
structure Response where
  ok : Bool
  body : Nat
  xCacheTimestamp : Option Nat
  xSignature : Option String
  xConditionalBypass : Option String
deriving Repr, DecidableEq

/-- One named cache (e.g. `static-v1.0.0`): request-keyed stored responses. -/
abbrev Partition := List (Url × Response)

/-- The whole Cache Storage: all named partitions (`caches.keys()`). -/
abbrev CacheStore := List (String × Partition)

/-- `cache.match(request)`: first entry stored under the URL. -/
def cacheMatch : Partition → Url → Option Response
  | [], _ => none
  | e :: rest, url => if e.1 = url then some e.2 else cacheMatch rest url

/-- `cache.delete(request)`: drop every entry stored under the URL
(a no-op when none exists). -/
def cacheDelete (part : Partition) (url : Url) : Partition :=
  part.filter (fun e => decide (e.1 ≠ url))

/-- `cache.put(request, response)`: store the response under the URL,
replacing any previous entry. -/
def cachePut (part : Partition) (url : Url) (r : Response) : Partition :=
  cacheDelete part url ++ [(url, r)]

/-- `maxCacheAge` from `CACHE_BUSTING_CONFIG`: 24 hours in milliseconds. -/
def maxCacheAge : Nat := 24 * 60 * 60 * 1000

/-- `staleWhileRevalidateTime` from `CACHE_BUSTING_CONFIG`: 5 minutes. -/
def staleWhileRevalidateTime : Nat := 5 * 60 * 1000

/-- Does the character list start with the given pattern? -/
def listStartsWith : List Char → List Char → Bool
  | _, [] => true
  | [], _ :: _ => false
  | a :: as, b :: bs => a = b && listStartsWith as bs

/-- Does the character list contain the pattern as a contiguous run? -/
def listHasSub : List Char → List Char → Bool
  | [], pat => pat.isEmpty
  | s :: rest, pat => listStartsWith (s :: rest) pat || listHasSub rest pat

/-- JavaScript `String.prototype.includes`. -/
def strIncludes (s pat : String) : Bool :=
  listHasSub s.data pat.data

/-- JavaScript `String.prototype.endsWith` (used only to state the spec's
classification rule 2 for comparison with the code). -/
def strEndsWith (s pat : String) : Bool :=
  listStartsWith s.data.reverse pat.data.reverse

/-- The four caching policies of §4.1. -/
inductive Policy where
  | apiPolicy
  | assetPolicy
  | versionedPolicy
  | defaultPolicy
deriving Repr, DecidableEq

/-- The fetch-event router (lines 102-115 of the source): substring tests on
the full request URL, first match wins. -/
def classify (url : Url) : Policy :=
  if strIncludes url "/api/" then .apiPolicy
  else if strIncludes url "/assets/" || strIncludes url ".js" || strIncludes url ".css" then
    .assetPolicy
  else if strIncludes url "?v=" || strIncludes url "?cb=" || strIncludes url "?h=" then
    .versionedPolicy
  else .defaultPolicy

/-- A URL split into its path and query-string components, used to state the
spec's path/query-based classification rules. `full` rebuilds the flat URL
string the code actually inspects. -/
structure UrlParts where
  origin : String
  path : String
  query : String
deriving Repr, DecidableEq

/-- The flat URL string, as `request.url` presents it to the code. -/
def UrlParts.full (u : UrlParts) : Url :=
  u.origin ++ u.path ++ (if u.query = "" then "" else "?" ++ u.query)

/-- The classification rules as the spec words them (§4.1): rule 1 and 2 test
the URL path (with `.js`/`.css` as path suffixes), rule 3 tests the query
string. Stated only to compare against `classify`. -/
def classifySpec (u : UrlParts) : Policy :=
  if strIncludes u.path "/api/" then .apiPolicy
  else if strIncludes u.path "/assets/" || strEndsWith u.path ".js" || strEndsWith u.path ".css" then
    .assetPolicy
  else if strIncludes u.query "v=" || strIncludes u.query "cb=" || strIncludes u.query "h=" then
    .versionedPolicy
  else .defaultPolicy

/-- `generateSignature(url)` (line 286): the URL tagged with the current
5-minute time bucket. -/
def generateSignature (url : Url) (now : Nat) : String :=
  url ++ "_" ++ toString (now / (5 * 60 * 1000))

/-- `shouldInvalidateCache(request, cachedResponse)` (lines 278-284): the
stored `X-Signature` (possibly absent, i.e. `null`) differs from the freshly
computed one. -/
def shouldInvalidateCache (url : Url) (cachedResponse : Response) (now : Nat) : Bool :=
  decide (cachedResponse.xSignature ≠ some (generateSignature url now))

/-- Is a cached response older than `maxCacheAge`?  Mirrors the test
`cacheTimestamp && (Date.now() - parseInt(cacheTimestamp)) > maxCacheAge`
(an entry without the header never counts as stale). -/
def staleByAge (now : Nat) (r : Response) : Bool :=
  match r.xCacheTimestamp with
  | some ts => decide ((now : Int) - (ts : Int) > (maxCacheAge : Int))
  | none => false

/-- `handleApiRequestWithCacheBusting` (lines 119-158), network-first on the
`api` partition. Result: (response to caller, partition after synchronous
writes, whether `refreshCacheInBackground` was spawned). -/
def handleApiRequestWithCacheBusting (net : Except String Response)
    (cache : Partition) (url : Url) (now : Nat) :
    Except String Response × Partition × Bool :=
  match net with
  | .ok networkResponse =>
    if networkResponse.ok then
      let responseToCache := { networkResponse with xCacheTimestamp := some now }
      (.ok networkResponse, cachePut cache url responseToCache, false)
    else
      (.ok networkResponse, cache, false)
  | .error e =>
    match cacheMatch cache url with
    | some cachedResponse =>
      (.ok cachedResponse, cache, staleByAge now cachedResponse)
    | none => (.error e, cache, false)

/-- `handleAssetRequestWithSignatureInvalidation` (lines 161-202),
cache-first on the `static` partition. Result: (response to caller,
partition after writes, whether a network fetch occurred). -/
def handleAssetRequestWithSignatureInvalidation (net : Except String Response)
    (cache : Partition) (url : Url) (now : Nat) :
    Except String Response × Partition × Bool :=
  let cachedResponse := cacheMatch cache url
  match cachedResponse with
  | some cr =>
    if !(shouldInvalidateCache url cr now) then
      (.ok cr, cache, false)
    else
      match net with
      | .ok networkResponse =>
        if networkResponse.ok then
          let responseToCache := { networkResponse with
            xSignature := some (generateSignature url now),
            xCacheTimestamp := some now }
          (.ok networkResponse, cachePut cache url responseToCache, true)
        else
          (.ok networkResponse, cache, true)
      | .error _ => (.ok cr, cache, true)
  | none =>
    match net with
    | .ok networkResponse =>
      if networkResponse.ok then
        let responseToCache := { networkResponse with
          xSignature := some (generateSignature url now),
          xCacheTimestamp := some now }
        (.ok networkResponse, cachePut cache url responseToCache, true)
      else
        (.ok networkResponse, cache, true)
    | .error e => (.error e, cache, true)

/-- `handleVersionedRequestWithConditionalBypass` (lines 205-239),
stale-while-revalidate on the `dynamic` partition. Result: (response to
caller, partition after synchronous writes, whether
`updateCacheInBackgroundWithConditionalBypass` was spawned). -/
def handleVersionedRequestWithConditionalBypass (net : Except String Response)
    (cache : Partition) (url : Url) (now : Nat) :
    Except String Response × Partition × Bool :=
  match cacheMatch cache url with
  | some cachedResponse => (.ok cachedResponse, cache, true)
  | none =>
    match net with
    | .ok networkResponse =>
      if networkResponse.ok then
        let responseToCache := { networkResponse with
          xCacheTimestamp := some now,
          xConditionalBypass := some "true" }
        (.ok networkResponse, cachePut cache url responseToCache, false)
      else
        (.ok networkResponse, cache, false)
    | .error e => (.error e, cache, false)

/-- `handleDefaultRequestWithStaleWhileRevalidate` (lines 242-274),
stale-while-revalidate on the `static` partition. Result: (response to
caller, partition after synchronous writes, whether
`updateCacheInBackground` was spawned). -/
def handleDefaultRequestWithStaleWhileRevalidate (net : Except String Response)
    (cache : Partition) (url : Url) (now : Nat) :
    Except String Response × Partition × Bool :=
  match cacheMatch cache url with
  | some cachedResponse =>
    let isStale :=
      match cachedResponse.xCacheTimestamp with
      | some ts => decide ((now : Int) - (ts : Int) > (staleWhileRevalidateTime : Int))
      | none => false
    (.ok cachedResponse, cache, isStale)
  | none =>
    match net with
    | .ok networkResponse =>
      if networkResponse.ok then
        let responseToCache := { networkResponse with xCacheTimestamp := some now }
        (.ok networkResponse, cachePut cache url responseToCache, false)
      else
        (.ok networkResponse, cache, false)
    | .error e => (.error e, cache, false)

/-- `refreshCacheInBackground` (lines 292-311): detached refresh after a
stale API fallback; write-through on an `ok` response, all failures
swallowed (logged only). -/
def refreshCacheInBackground (net : Except String Response)
    (cache : Partition) (url : Url) (now : Nat) : Partition :=
  match net with
  | .ok networkResponse =>
    if networkResponse.ok then
      cachePut cache url { networkResponse with xCacheTimestamp := some now }
    else cache
  | .error _ => cache

/-- `updateCacheInBackgroundWithConditionalBypass` (lines 313-335): detached
refresh of a versioned entry; write-through on an `ok` response (with the
bypass marker), all failures swallowed (logged only). -/
def updateCacheInBackgroundWithConditionalBypass (net : Except String Response)
    (cache : Partition) (url : Url) (now : Nat) : Partition :=
  match net with
  | .ok networkResponse =>
    if networkResponse.ok then
      cachePut cache url { networkResponse with
        xCacheTimestamp := some now, xConditionalBypass := some "true" }
    else cache
  | .error _ => cache

/-- `updateCacheInBackground` (lines 337-350): detached refresh used by the
default policy; write-through on an `ok` response, failures swallowed. -/
def updateCacheInBackground (net : Except String Response)
    (cache : Partition) (url : Url) (now : Nat) : Partition :=
  match net with
  | .ok networkResponse =>
    if networkResponse.ok then
      cachePut cache url { networkResponse with xCacheTimestamp := some now }
    else cache
  | .error _ => cache

/-- The signature-sweep eviction test (lines 403-406),
`cachedSignature && cachedSignature !== currentSignature`: the entry carries
a *truthy* stored signature (absent `null` and the empty string are both
falsy in JavaScript, so such entries are exempt) and it differs from the
freshly computed one. -/
def sigMismatch (now : Nat) (u : Url) (r : Response) : Bool :=
  match r.xSignature with
  | some s => if s = "" then false else decide (s ≠ generateSignature u now)
  | none => false

/-- One maintainer pass over a snapshot of a partition's keys, deleting every
entry the eviction test `p` flags.  `fail u` is the failure oracle: `true`
models the per-entry cache operation for `u` rejecting.  In the source the
`try`/`catch` wraps the whole loop, so a rejection (or `cache.match`
returning `undefined`, which makes `response.headers` throw) propagates out
of the loop: the pass stops, returning the partition as mutated so far and
an aborted flag. -/
def sweepPassAux (p : Url → Response → Bool) (fail : Url → Bool) :
    List Url → Partition → Partition × Bool
  | [], part => (part, false)
  | u :: rest, part =>
    if fail u then (part, true)
    else
      match cacheMatch part u with
      | none => (part, true)
      | some r =>
        if p u r then sweepPassAux p fail rest (cacheDelete part u)
        else sweepPassAux p fail rest part

/-- A maintainer sweep over all partitions.  An aborted pass throws out of
the partition loop into the sweep-level `catch`, so later partitions are
left untouched. -/
def sweepStore (p : Url → Response → Bool) (fail : Url → Bool) : CacheStore → CacheStore
  | [] => []
  | c :: rest =>
    match sweepPassAux p fail (c.2.map Prod.fst) c.2 with
    | (part2, true) => (c.1, part2) :: rest
    | (part2, false) => (c.1, part2) :: sweepStore p fail rest

/-- `performPeriodicCacheInvalidation` (lines 368-390): the age sweep —
delete every entry whose `X-Cache-Timestamp` is older than `maxCacheAge`. -/
def performPeriodicCacheInvalidation (now : Nat) (fail : Url → Bool)
    (store : CacheStore) : CacheStore :=
  sweepStore (fun _ r => staleByAge now r) fail store

/-- `performPeriodicSignatureInvalidation` (lines 393-415): the signature
sweep — delete every entry whose stored signature differs from the freshly
computed one. -/
def performPeriodicSignatureInvalidation (now : Nat) (fail : Url → Bool)
    (store : CacheStore) : CacheStore :=
  sweepStore (sigMismatch now) fail store

/-- `invalidateCache(url)` (lines 478-485): delete the URL's entry from
every partition. -/
def invalidateCache (url : Url) (store : CacheStore) : CacheStore :=
  store.map (fun c => (c.1, cacheDelete c.2 url))

/-- Lookup in the `signatures` map sent with `UPDATE_CACHE_SIGNATURES`. -/
def sigLookup : List (Url × String) → Url → Option String
  | [], _ => none
  | e :: rest, url => if e.1 = url then some e.2 else sigLookup rest url

/-- `signatures[request.url] || generateSignature(request.url)` (line 499):
the supplied value when the URL is a key mapped to a truthy (non-empty)
string, otherwise a freshly computed signature. -/
def sigValueFor (signatures : List (Url × String)) (url : Url) (now : Nat) : String :=
  match sigLookup signatures url with
  | some s => if s = "" then generateSignature url now else s
  | none => generateSignature url now

/-- One pass of `updateCacheSignatures` over a snapshot of a partition's
keys (lines 495-503): every matched entry is rewritten with the new
signature and a refreshed timestamp (the `if (response)` guard skips a
missing match). -/
def updateSigPass (signatures : List (Url × String)) (now : Nat) :
    List Url → Partition → Partition
  | [], part => part
  | u :: rest, part =>
    match cacheMatch part u with
    | some r =>
      updateSigPass signatures now rest
        (cachePut part u { r with
          xSignature := some (sigValueFor signatures u now),
          xCacheTimestamp := some now })
    | none => updateSigPass signatures now rest part

/-- `updateCacheSignatures(signatures)` (lines 488-505): run the rewrite
pass over every partition. -/
def updateCacheSignatures (signatures : List (Url × String)) (now : Nat)
    (store : CacheStore) : CacheStore :=
  store.map (fun c => (c.1, updateSigPass signatures now (c.2.map Prod.fst) c.2))

/-! ### Sample data used by witnesses and counterexamples -/

/-- A signed static entry whose signature matches the bucket-0 signature of
`/assets/app.js`. -/
def sampleSignedAsset : Response :=
  { ok := true, body := 1, xCacheTimestamp := some 0,
    xSignature := some "/assets/app.js_0", xConditionalBypass := none }

/-- A static entry carrying no `X-Signature` header (e.g. preloaded at
install time). -/
def sampleUnsignedAsset : Response :=
  { ok := true, body := 2, xCacheTimestamp := some 0,
    xSignature := none, xConditionalBypass := none }

/-- A cached API response with timestamp 0. -/
def sampleApiCached : Response :=
  { ok := true, body := 3, xCacheTimestamp := some 0,
    xSignature := none, xConditionalBypass := none }

/-- A delivered network response whose `ok` flag is `false`. -/
def sampleNonOk : Response :=
  { ok := false, body := 7, xCacheTimestamp := none,
    xSignature := none, xConditionalBypass := none }

/-- A cached dynamic (versioned) entry. -/
def sampleVersioned : Response :=
  { ok := true, body := 4, xCacheTimestamp := some 0,
    xSignature := none, xConditionalBypass := some "true" }

/-- A stale entry (timestamp 0) for sweeps run at clock `2 * maxCacheAge`. -/
def sampleStaleA : Response :=
  { ok := true, body := 5, xCacheTimestamp := some 0,
    xSignature := none, xConditionalBypass := none }

/-- A second stale entry for sweeps run at clock `2 * maxCacheAge`. -/
def sampleStaleB : Response :=
  { ok := true, body := 6, xCacheTimestamp := some 0,
    xSignature := none, xConditionalBypass := none }

/-- An entry with an out-of-date stored signature. -/
def sampleOldSigned : Response :=
  { ok := true, body := 8, xCacheTimestamp := some 0,
    xSignature := some "stale-sig", xConditionalBypass := none }

/-- An entry whose timestamp equals the sweep clock `2 * maxCacheAge`. -/
def sampleFreshEntry : Response :=
  { ok := true, body := 9, xCacheTimestamp := some (2 * maxCacheAge),
    xSignature := none, xConditionalBypass := none }

/-! ### Lemmas about the cache primitives -/

theorem cacheMatch_eq_none_of_not_mem {part : Partition} {u : Url}
    (h : u ∉ part.map Prod.fst) : cacheMatch part u = none := by
  induction part with
  | nil => rfl
  | cons e rest ih =>
    simp only [List.map_cons, List.mem_cons, not_or] at h
    rw [cacheMatch, if_neg (fun hc => h.1 hc.symm)]
    exact ih h.2

theorem mem_of_cacheMatch {part : Partition} {u : Url} {r : Response}
    (h : cacheMatch part u = some r) : (u, r) ∈ part := by
  induction part with
  | nil => simp [cacheMatch] at h
  | cons e rest ih =>
    rw [cacheMatch] at h
    by_cases hc : e.1 = u
    · rw [if_pos hc] at h
      have : (u, r) = e := by
        cases e; cases h; cases hc; rfl
      simp [this]
    · rw [if_neg hc] at h
      exact List.mem_cons_of_mem _ (ih h)

theorem cacheMatch_of_mem_nodup {part : Partition}
    (hnd : (part.map Prod.fst).Nodup) {e : Url × Response} (h : e ∈ part) :
    cacheMatch part e.1 = some e.2 := by
  induction part with
  | nil => simp at h
  | cons c rest ih =>
    rcases List.mem_cons.mp h with h1 | h2
    · subst h1; rw [cacheMatch, if_pos rfl]
    · have hc : c.1 ≠ e.1 := by
        intro hc
        have : e.1 ∈ rest.map Prod.fst := List.mem_map_of_mem Prod.fst h2
        rw [← hc] at this
        exact (List.nodup_cons.mp hnd).1 this
      rw [cacheMatch, if_neg hc]
      exact ih (List.nodup_cons.mp hnd).2 h2

theorem cacheMatch_cacheDelete_self (part : Partition) (u : Url) :
    cacheMatch (cacheDelete part u) u = none := by
  apply cacheMatch_eq_none_of_not_mem
  intro hmem
  rcases List.mem_map.mp hmem with ⟨e, he, heq⟩
  rcases List.mem_filter.mp he with ⟨_, hne⟩
  exact (of_decide_eq_true hne) heq

theorem cacheMatch_cacheDelete_ne {part : Partition} {u v : Url} (h : v ≠ u) :
    cacheMatch (cacheDelete part u) v = cacheMatch part v := by
  induction part with
  | nil => rfl
  | cons e rest ih =>
    by_cases he : e.1 = u
    · have hst : cacheDelete (e :: rest) u = cacheDelete rest u := by
        simp [cacheDelete, List.filter_cons, he]
      have hne : e.1 ≠ v := fun hc => h (hc ▸ he)
      rw [hst, ih, cacheMatch, if_neg hne]
    · have : cacheDelete (e :: rest) u = e :: cacheDelete rest u := by
        simp [cacheDelete, List.filter_cons, he]
      rw [this, cacheMatch, cacheMatch]
      by_cases hv : e.1 = v
      · rw [if_pos hv, if_pos hv]
      · rw [if_neg hv, if_neg hv, ih]

theorem cacheMatch_append_of_none {l1 l2 : Partition} {v : Url}
    (h : cacheMatch l1 v = none) : cacheMatch (l1 ++ l2) v = cacheMatch l2 v := by
  induction l1 with
  | nil => rfl
  | cons e rest ih =>
    rw [cacheMatch] at h
    by_cases hc : e.1 = v
    · rw [if_pos hc] at h; cases h
    · rw [if_neg hc] at h
      rw [List.cons_append, cacheMatch, if_neg hc]
      exact ih h

theorem cacheMatch_cachePut_self (part : Partition) (u : Url) (r : Response) :
    cacheMatch (cachePut part u r) u = some r := by
  rw [cachePut, cacheMatch_append_of_none (cacheMatch_cacheDelete_self part u),
    cacheMatch, if_pos rfl]

theorem cacheMatch_append_of_some {l1 l2 : Partition} {v : Url} {r : Response}
    (h : cacheMatch l1 v = some r) : cacheMatch (l1 ++ l2) v = some r := by
  induction l1 with
  | nil => simp [cacheMatch] at h
  | cons e rest ih =>
    rw [cacheMatch] at h
    rw [List.cons_append, cacheMatch]
    by_cases hc : e.1 = v
    · rw [if_pos hc] at h ⊢; exact h
    · rw [if_neg hc] at h ⊢; exact ih h

theorem cacheMatch_cachePut_ne {part : Partition} {u v : Url} (r : Response)
    (h : v ≠ u) : cacheMatch (cachePut part u r) v = cacheMatch part v := by
  rw [cachePut, ← @cacheMatch_cacheDelete_ne part u v h]
  cases hm : cacheMatch (cacheDelete part u) v with
  | none =>
    rw [cacheMatch_append_of_none hm, cacheMatch, if_neg (fun hc => h hc.symm)]
    rfl
  | some r2 => rw [cacheMatch_append_of_some hm]

theorem mem_cachePut {part : Partition} {u : Url} {r : Response} {e : Url × Response}
    (h : e ∈ cachePut part u r) : e ∈ part ∨ e = (u, r) := by
  rcases List.mem_append.mp h with h1 | h2
  · exact Or.inl (List.mem_filter.mp h1).1
  · simp at h2; exact Or.inr h2

theorem cacheDelete_keys_nodup {part : Partition}
    (hnd : (part.map Prod.fst).Nodup) (u : Url) :
    ((cacheDelete part u).map Prod.fst).Nodup :=
  hnd.sublist ((List.filter_sublist part).map Prod.fst)

theorem mem_keys_cacheDelete {part : Partition} {u v : Url}
    (hv : v ∈ part.map Prod.fst) (hne : v ≠ u) :
    v ∈ (cacheDelete part u).map Prod.fst := by
  obtain ⟨e, he, heq⟩ := List.mem_map.mp hv
  have hne2 : e.1 ≠ u := by rw [heq]; exact hne
  exact List.mem_map.mpr ⟨e, List.mem_filter.mpr ⟨he, decide_eq_true hne2⟩, heq⟩

theorem cacheMatch_filter {part : Partition} (hnd : (part.map Prod.fst).Nodup)
    {url : Url} {r : Response} (hr : cacheMatch part url = some r)
    (q : Url × Response → Bool) :
    cacheMatch (part.filter q) url = if q (url, r) then some r else none := by
  induction part with
  | nil => simp [cacheMatch] at hr
  | cons e rest ih =>
    obtain ⟨e1, e2⟩ := e
    rw [cacheMatch] at hr
    by_cases hc : e1 = url
    · subst hc
      rw [if_pos rfl] at hr
      injection hr with hr2
      subst hr2
      rw [List.filter_cons]
      by_cases hq : q (e1, e2)
      · rw [if_pos hq, if_pos hq, cacheMatch, if_pos rfl]
      · rw [if_neg hq, if_neg hq]
        apply cacheMatch_eq_none_of_not_mem
        intro hmem
        obtain ⟨e3, he3, heq3⟩ := List.mem_map.mp hmem
        have : e1 ∈ rest.map Prod.fst :=
          List.mem_map.mpr ⟨e3, (List.mem_filter.mp he3).1, heq3⟩
        exact (List.nodup_cons.mp hnd).1 this
    · rw [if_neg hc] at hr
      have ih2 := ih (List.nodup_cons.mp hnd).2 hr
      rw [List.filter_cons]
      by_cases hq : q (e1, e2)
      · rw [if_pos hq, cacheMatch, if_neg hc]
        exact ih2
      · rw [if_neg hq]
        exact ih2

theorem sweepPassAux_no_fail (p : Url → Response → Bool) (keys : List Url) :
    ∀ part : Partition, (part.map Prod.fst).Nodup → keys.Nodup →
      (∀ u ∈ keys, u ∈ part.map Prod.fst) →
      sweepPassAux p (fun _ => false) keys part
        = (part.filter (fun e => !(decide (e.1 ∈ keys) && p e.1 e.2)), false) := by
  induction keys with
  | nil =>
    intro part _ _ _
    rw [sweepPassAux]
    congr 1
    refine (List.filter_eq_self.mpr ?_).symm
    intro e _
    simp
  | cons u rest ih =>
    intro part hnd hknd hsub
    have hu : u ∈ part.map Prod.fst := hsub u (List.mem_cons_self u rest)
    obtain ⟨e0, he0, heq⟩ := List.mem_map.mp hu
    have hm : cacheMatch part u = some e0.2 := heq ▸ cacheMatch_of_mem_nodup hnd he0
    have hur : u ∉ rest := (List.nodup_cons.mp hknd).1
    rw [sweepPassAux]
    simp only [Bool.false_eq_true, if_false, hm]
    by_cases hp : p u e0.2 = true
    · rw [if_pos hp]
      rw [ih (cacheDelete part u) (cacheDelete_keys_nodup hnd u)
        (List.nodup_cons.mp hknd).2
        (fun v hv => mem_keys_cacheDelete (hsub v (List.mem_cons_of_mem u hv))
          (fun hvu => hur (hvu ▸ hv)))]
      congr 1
      rw [cacheDelete, List.filter_filter]
      apply List.filter_congr
      intro e he
      by_cases hc : e.1 = u
      · have h1 : cacheMatch part e.1 = some e.2 := cacheMatch_of_mem_nodup hnd he
        rw [hc, hm] at h1
        injection h1 with h2
        simp [hc, ← h2, hp]
      · simp [hc, List.mem_cons]
    · rw [if_neg hp]
      rw [ih part hnd (List.nodup_cons.mp hknd).2
        (fun v hv => hsub v (List.mem_cons_of_mem u hv))]
      congr 1
      apply List.filter_congr
      intro e he
      by_cases hc : e.1 = u
      · have h1 : cacheMatch part e.1 = some e.2 := cacheMatch_of_mem_nodup hnd he
        rw [hc, hm] at h1
        injection h1 with h2
        have hp2 : p u e0.2 = false := by revert hp; cases p u e0.2 <;> simp
        simp [hc, ← h2, hp2, hur]
      · simp [hc, List.mem_cons]

theorem sweepStore_no_fail (p : Url → Response → Bool) (store : CacheStore)
    (hnd : ∀ c ∈ store, ((c.2 : Partition).map Prod.fst).Nodup) :
    sweepStore p (fun _ => false) store
      = store.map (fun c => (c.1, c.2.filter (fun e => !(p e.1 e.2)))) := by
  induction store with
  | nil => rfl
  | cons c rest ih =>
    have hc := hnd c (List.mem_cons_self c rest)
    have h1 := sweepPassAux_no_fail p (c.2.map Prod.fst) c.2 hc hc (fun _ hu => hu)
    rw [sweepStore, h1]
    have hfil : c.2.filter
        (fun e => !(decide (e.1 ∈ c.2.map Prod.fst) && p e.1 e.2))
        = c.2.filter (fun e => !(p e.1 e.2)) := by
      apply List.filter_congr
      intro e he
      simp [List.mem_map_of_mem Prod.fst he]
    rw [List.map_cons, ← ih (fun d hd => hnd d (List.mem_cons_of_mem c hd)), hfil]

theorem updateSigPass_cacheMatch (sigs : List (Url × String)) (now : Nat)
    (keys : List Url) :
    ∀ (part : Partition) (v : Url), keys.Nodup →
      cacheMatch (updateSigPass sigs now keys part) v
        = if v ∈ keys then
            (cacheMatch part v).map (fun r =>
              { r with xSignature := some (sigValueFor sigs v now),
                       xCacheTimestamp := some now })
          else cacheMatch part v := by
  induction keys with
  | nil =>
    intro part v _
    simp [updateSigPass]
  | cons u rest ih =>
    intro part v hknd
    rw [updateSigPass]
    cases hm : cacheMatch part u with
    | none =>
      rw [ih part v (List.nodup_cons.mp hknd).2]
      by_cases hv : v ∈ rest
      · rw [if_pos hv, if_pos (List.mem_cons_of_mem u hv)]
      · rw [if_neg hv]
        by_cases hvu : v = u
        · subst hvu
          rw [if_pos (List.mem_cons_self v rest), hm]
          rfl
        · rw [if_neg (by simp [List.mem_cons, hvu, hv])]
    | some r =>
      rw [ih _ v (List.nodup_cons.mp hknd).2]
      by_cases hvu : v = u
      · subst hvu
        have hvr : v ∉ rest := (List.nodup_cons.mp hknd).1
        rw [if_neg hvr, cacheMatch_cachePut_self,
          if_pos (List.mem_cons_self v rest), hm]
        rfl
      · rw [cacheMatch_cachePut_ne _ hvu]
        by_cases hv : v ∈ rest
        · rw [if_pos hv, if_pos (List.mem_cons_of_mem u hv)]
        · rw [if_neg hv, if_neg (by simp [List.mem_cons, hvu, hv])]

/-! ### Claim theorems -/

/-- C1 (counterexample): the claim's path/query-based classification rules
disagree with the code at the URL `https://example.com/data.json`: its path
ends in `.json`, not `.js`, and has no `/api/`, `/assets/` or versioned
query, so the claimed rules select the default policy, but the code's
substring test `request.url.includes('.js')` matches inside `.json` and
selects the asset policy. -/
theorem classify_spec_counterexample :
    classify (UrlParts.full
        { origin := "https://example.com", path := "/data.json", query := "" })
      = Policy.assetPolicy
    ∧ classifySpec { origin := "https://example.com", path := "/data.json", query := "" }
      = Policy.defaultPolicy := ⟨by decide, by decide⟩

/-- C1 (amended): the router evaluates, in order with first match winning,
substring tests over the full URL string — `/api/` anywhere selects the API
policy, else `/assets/`, `.js` or `.css` anywhere selects the asset policy,
else `?v=`, `?cb=` or `?h=` anywhere selects the versioned policy, else the
default policy — so exactly one policy is selected, as a pure function of
the URL. -/
theorem classify_firstMatch (url : Url) :
    (classify url = Policy.apiPolicy ↔ strIncludes url "/api/" = true)
    ∧ (classify url = Policy.assetPolicy ↔
        (strIncludes url "/api/" = false
          ∧ (strIncludes url "/assets/" || strIncludes url ".js"
              || strIncludes url ".css") = true))
    ∧ (classify url = Policy.versionedPolicy ↔
        (strIncludes url "/api/" = false
          ∧ (strIncludes url "/assets/" || strIncludes url ".js"
              || strIncludes url ".css") = false
          ∧ (strIncludes url "?v=" || strIncludes url "?cb="
              || strIncludes url "?h=") = true))
    ∧ (classify url = Policy.defaultPolicy ↔
        (strIncludes url "/api/" = false
          ∧ (strIncludes url "/assets/" || strIncludes url ".js"
              || strIncludes url ".css") = false
          ∧ (strIncludes url "?v=" || strIncludes url "?cb="
              || strIncludes url "?h=") = false)) := by
  cases h1 : strIncludes url "/api/" <;>
    cases h2 : (strIncludes url "/assets/" || strIncludes url ".js"
      || strIncludes url ".css") <;>
      cases h3 : (strIncludes url "?v=" || strIncludes url "?cb="
        || strIncludes url "?h=") <;>
        simp [classify, h1, h2, h3]

/-- C2: for the asset policy, a cached entry whose stored `X-Signature`
equals the freshly computed signature for the URL is returned immediately,
the partition is untouched, and no network fetch occurs. -/
theorem assetPolicy_shortCircuit (net : Except String Response)
    (cache : Partition) (url : Url) (now : Nat) (r : Response)
    (h1 : cacheMatch cache url = some r)
    (h2 : r.xSignature = some (generateSignature url now)) :
    handleAssetRequestWithSignatureInvalidation net cache url now
      = (.ok r, cache, false) := by
  have hs : shouldInvalidateCache url r now = false := by
    simp [shouldInvalidateCache, h2]
  simp [handleAssetRequestWithSignatureInvalidation, h1, hs]

/-- Witness for C2 at a concrete signed static entry. -/
theorem assetPolicy_shortCircuit_witness :
    handleAssetRequestWithSignatureInvalidation (.error "net-down")
        [("/assets/app.js", sampleSignedAsset)] "/assets/app.js" 0
      = (.ok sampleSignedAsset, [("/assets/app.js", sampleSignedAsset)], false) :=
  assetPolicy_shortCircuit (.error "net-down") _ "/assets/app.js" 0
    sampleSignedAsset (by decide) (by decide)

/-- C3: for the versioned policy, whenever a cached entry exists the caller
receives exactly that cached response with the partition untouched and a
detached background refresh spawned, whatever the network would answer; and
a failing background refresh leaves the partition unchanged (the failure is
swallowed). -/
theorem versionedPolicy_servesCacheFirst (net : Except String Response)
    (cache : Partition) (url : Url) (now : Nat) (r : Response)
    (h : cacheMatch cache url = some r) :
    handleVersionedRequestWithConditionalBypass net cache url now
      = (.ok r, cache, true)
    ∧ ∀ msg : String,
        updateCacheInBackgroundWithConditionalBypass (.error msg) cache url now
          = cache := by
  constructor
  · simp [handleVersionedRequestWithConditionalBypass, h]
  · intro msg
    rfl

/-- Witness for C3 at a concrete versioned entry. -/
theorem versionedPolicy_servesCacheFirst_witness :
    handleVersionedRequestWithConditionalBypass (.error "net-down")
        [("/page?v=2", sampleVersioned)] "/page?v=2" 9
      = (.ok sampleVersioned, [("/page?v=2", sampleVersioned)], true)
    ∧ updateCacheInBackgroundWithConditionalBypass (.error "bg-fail")
        [("/page?v=2", sampleVersioned)] "/page?v=2" 9
      = [("/page?v=2", sampleVersioned)] := by
  have h := versionedPolicy_servesCacheFirst (.error "net-down")
    [("/page?v=2", sampleVersioned)] "/page?v=2" 9 sampleVersioned (by decide)
  exact ⟨h.1, h.2 "bg-fail"⟩

/-- C5 (counterexample): a delivered non-`ok` response is *not* recovered by
falling back to the `api` partition: even with a cached entry present, the
handler returns the non-`ok` network response itself, which differs from the
cached response. -/
theorem apiPolicy_nonOk_counterexample :
    cacheMatch [("/api/data", sampleApiCached)] "/api/data" = some sampleApiCached
    ∧ handleApiRequestWithCacheBusting (.ok sampleNonOk)
        [("/api/data", sampleApiCached)] "/api/data" 0
      = (.ok sampleNonOk, [("/api/data", sampleApiCached)], false)
    ∧ sampleNonOk ≠ sampleApiCached := ⟨rfl, rfl, by decide⟩

/-- C5 (amended): only a *rejected* fetch is recovered by falling back to
the `api` partition — a cached entry is returned (with a detached refresh
scheduled exactly when the entry is older than `maxCacheAge`), and the
rejection propagates only when no cached entry exists; a delivered non-`ok`
response is returned to the caller directly, uncached and without
consulting the cache. -/
theorem apiPolicy_fallback (cache : Partition) (url : Url) (now : Nat)
    (msg : String) :
    (∀ r : Response, cacheMatch cache url = some r →
      handleApiRequestWithCacheBusting (.error msg) cache url now
        = (.ok r, cache, staleByAge now r))
    ∧ (cacheMatch cache url = none →
      handleApiRequestWithCacheBusting (.error msg) cache url now
        = (.error msg, cache, false))
    ∧ (∀ nr : Response, nr.ok = false →
      handleApiRequestWithCacheBusting (.ok nr) cache url now
        = (.ok nr, cache, false)) := by
  refine ⟨fun r h => ?_, fun h => ?_, fun nr h => ?_⟩ <;>
    simp [handleApiRequestWithCacheBusting, h]

/-- Witness for C5's amended statement, covering all three branches. -/
theorem apiPolicy_fallback_witness :
    handleApiRequestWithCacheBusting (.error "net-down")
        [("/api/data", sampleApiCached)] "/api/data" 5
      = (.ok sampleApiCached, [("/api/data", sampleApiCached)],
          staleByAge 5 sampleApiCached)
    ∧ handleApiRequestWithCacheBusting (.error "net-down") [] "/api/data" 5
      = (.error "net-down", [], false)
    ∧ handleApiRequestWithCacheBusting (.ok sampleNonOk)
        [("/api/data", sampleApiCached)] "/api/data" 5
      = (.ok sampleNonOk, [("/api/data", sampleApiCached)], false) := by
  refine ⟨?_, ?_, ?_⟩
  · exact (apiPolicy_fallback [("/api/data", sampleApiCached)] "/api/data" 5
      "net-down").1 sampleApiCached (by decide)
  · exact (apiPolicy_fallback [] "/api/data" 5 "net-down").2.1 rfl
  · exact (apiPolicy_fallback [("/api/data", sampleApiCached)] "/api/data" 5
      "net-down").2.2 sampleNonOk rfl

theorem cacheDelete_idem (part : Partition) (url : Url) :
    cacheDelete (cacheDelete part url) url = cacheDelete part url := by
  rw [cacheDelete, cacheDelete, List.filter_filter]
  apply List.filter_congr
  intro e _
  simp

/-- C8: `INVALIDATE_CACHE(url)` is idempotent — running it twice over the
whole store yields the same final state as running it once (deleting an
absent entry is a no-op, and the model is total, so the second call cannot
fail). -/
theorem invalidateCache_idempotent (url : Url) (store : CacheStore) :
    invalidateCache url (invalidateCache url store) = invalidateCache url store := by
  induction store with
  | nil => rfl
  | cons c rest ih =>
    simp only [invalidateCache, List.map_cons, List.map_map] at ih ⊢
    rw [cacheDelete_idem]
    exact congrArg _ ih

/-- C9: for the asset policy, a cached entry with no stored `X-Signature`
never takes the fast cache-return path: a network fetch always occurs, the
cached entry is returned only when that fetch rejects, and a delivered
response (ok or not) is returned to the caller instead of the cache. -/
theorem assetPolicy_unsigned_alwaysFetches (net : Except String Response)
    (cache : Partition) (url : Url) (now : Nat) (r : Response)
    (h1 : cacheMatch cache url = some r) (h2 : r.xSignature = none) :
    (handleAssetRequestWithSignatureInvalidation net cache url now).2.2 = true
    ∧ (∀ msg : String, net = .error msg →
        (handleAssetRequestWithSignatureInvalidation net cache url now).1 = .ok r)
    ∧ (∀ nr : Response, net = .ok nr →
        (handleAssetRequestWithSignatureInvalidation net cache url now).1 = .ok nr) := by
  have hs : shouldInvalidateCache url r now = true := by
    simp [shouldInvalidateCache, h2]
  refine ⟨?_, ?_, ?_⟩
  · cases net with
    | ok nr =>
      by_cases hok : nr.ok = true <;>
        simp [handleAssetRequestWithSignatureInvalidation, h1, hs, hok]
    | error msg =>
      simp [handleAssetRequestWithSignatureInvalidation, h1, hs]
  · intro msg hnet
    subst hnet
    simp [handleAssetRequestWithSignatureInvalidation, h1, hs]
  · intro nr hnet
    subst hnet
    by_cases hok : nr.ok = true <;>
      simp [handleAssetRequestWithSignatureInvalidation, h1, hs, hok]

/-- Witness for C9 at a concrete unsigned static entry. -/
theorem assetPolicy_unsigned_witness :
    (handleAssetRequestWithSignatureInvalidation (.error "net-down")
        [("/assets/app.js", sampleUnsignedAsset)] "/assets/app.js" 0).2.2 = true
    ∧ (handleAssetRequestWithSignatureInvalidation (.error "net-down")
        [("/assets/app.js", sampleUnsignedAsset)] "/assets/app.js" 0).1
      = .ok sampleUnsignedAsset := by
  have h := assetPolicy_unsigned_alwaysFetches (.error "net-down")
    [("/assets/app.js", sampleUnsignedAsset)] "/assets/app.js" 0
    sampleUnsignedAsset (by decide) rfl
  exact ⟨h.1, h.2.1 "net-down" rfl⟩

/-- C4: after the age sweep at clock `now`, each partition of the store is
its age-filtered image, and within it an entry with an `X-Cache-Timestamp`
remains iff `now - timestamp ≤ maxCacheAge`, while an entry without a
timestamp always remains (exempt).  The no-duplicate-keys hypothesis
reflects the Cache Storage API, which keys each partition uniquely by
request. -/
theorem ageSweep_remains_iff (now : Nat) (store : CacheStore)
    (hnd : ∀ c ∈ store, ((c.2 : Partition).map Prod.fst).Nodup)
    (nm : String) (part : Partition) (hmem : (nm, part) ∈ store)
    (url : Url) (r : Response) (hr : cacheMatch part url = some r) :
    (nm, part.filter (fun e => !(staleByAge now e.2)))
        ∈ performPeriodicCacheInvalidation now (fun _ => false) store
    ∧ (∀ ts : Nat, r.xCacheTimestamp = some ts →
        (cacheMatch (part.filter (fun e => !(staleByAge now e.2))) url = some r
          ↔ (now : Int) - (ts : Int) ≤ (maxCacheAge : Int)))
    ∧ (r.xCacheTimestamp = none →
        cacheMatch (part.filter (fun e => !(staleByAge now e.2))) url = some r) := by
  have hpartnd := hnd (nm, part) hmem
  refine ⟨?_, ?_, ?_⟩
  · rw [performPeriodicCacheInvalidation, sweepStore_no_fail _ store hnd]
    exact List.mem_map_of_mem _ hmem
  · intro ts hts
    have hst : staleByAge now r
        = decide ((now : Int) - (ts : Int) > (maxCacheAge : Int)) := by
      rw [staleByAge, hts]
    rw [cacheMatch_filter hpartnd hr]
    constructor
    · intro hsome
      by_contra hgt
      rw [not_le] at hgt
      rw [hst, decide_eq_true hgt] at hsome
      simp at hsome
    · intro hle
      rw [hst, decide_eq_false (not_lt.mpr hle)]
      rfl
  · intro hnone
    have hst : staleByAge now r = false := by rw [staleByAge, hnone]
    rw [cacheMatch_filter hpartnd hr, hst]
    rfl

/-- Witness for C4: at clock `2 * maxCacheAge`, an entry written at that
very clock survives the age sweep of a store that also holds a stale
entry. -/
theorem ageSweep_remains_iff_witness :
    ("api", List.filter (fun e => !(staleByAge (2 * maxCacheAge) e.2))
        [("u", sampleFreshEntry), ("w", sampleStaleA)])
      ∈ performPeriodicCacheInvalidation (2 * maxCacheAge) (fun _ => false)
        [("api", [("u", sampleFreshEntry), ("w", sampleStaleA)])]
    ∧ (cacheMatch (List.filter (fun e => !(staleByAge (2 * maxCacheAge) e.2))
          [("u", sampleFreshEntry), ("w", sampleStaleA)]) "u" = some sampleFreshEntry
        ↔ ((2 * maxCacheAge : Nat) : Int) - ((2 * maxCacheAge : Nat) : Int)
            ≤ (maxCacheAge : Int)) := by
  have h := ageSweep_remains_iff (2 * maxCacheAge)
    [("api", [("u", sampleFreshEntry), ("w", sampleStaleA)])]
    (by decide) "api" [("u", sampleFreshEntry), ("w", sampleStaleA)]
    (by simp) "u" sampleFreshEntry (by decide)
  exact ⟨h.1, h.2.1 (2 * maxCacheAge) rfl⟩

/-- C6 (counterexample): with two stale entries in one partition and a
per-entry failure on the first, the age sweep returns with the partition
completely unchanged — the second stale entry is neither visited nor
deleted, although the failure-free sweep deletes both — so a per-entry
failure does abort the processing of the remaining entries. -/
theorem sweep_abort_counterexample :
    performPeriodicCacheInvalidation (2 * maxCacheAge) (fun u => u == "u1")
        [("p", [("u1", sampleStaleA), ("u2", sampleStaleB)])]
      = [("p", [("u1", sampleStaleA), ("u2", sampleStaleB)])]
    ∧ staleByAge (2 * maxCacheAge) sampleStaleB = true
    ∧ performPeriodicCacheInvalidation (2 * maxCacheAge) (fun _ => false)
        [("p", [("u1", sampleStaleA), ("u2", sampleStaleB)])]
      = [("p", [])] := ⟨rfl, by decide, rfl⟩

theorem sweepPassAux_fail_false (p : Url → Response → Bool) (fail : Url → Bool)
    (keys : List Url) :
    ∀ part : Partition, (∀ v ∈ keys, fail v = false) →
      sweepPassAux p fail keys part = sweepPassAux p (fun _ => false) keys part := by
  induction keys with
  | nil =>
    intro part _
    rfl
  | cons v rest ih =>
    intro part hf
    have hv : fail v = false := hf v (List.mem_cons_self v rest)
    have hrest : ∀ w ∈ rest, fail w = false :=
      fun w hw => hf w (List.mem_cons_of_mem v hw)
    cases hm : cacheMatch part v with
    | none => simp [sweepPassAux, hv, hm]
    | some r =>
      by_cases hp : p v r = true <;>
        simp [sweepPassAux, hv, hm, hp, ih _ hrest]

theorem sweepPassAux_fail_mid (p : Url → Response → Bool) (fail : Url → Bool)
    (pres : List Url) (u : Url) (posts : List Url) :
    ∀ part : Partition, (∀ v ∈ pres, fail v = false) → fail u = true →
      sweepPassAux p fail (pres ++ u :: posts) part
        = ((sweepPassAux p (fun _ => false) pres part).1, true) := by
  induction pres with
  | nil =>
    intro part _ hu
    simp [sweepPassAux, hu]
  | cons v rest ih =>
    intro part hf hu
    have hv : fail v = false := hf v (List.mem_cons_self v rest)
    have hrest : ∀ w ∈ rest, fail w = false :=
      fun w hw => hf w (List.mem_cons_of_mem v hw)
    cases hm : cacheMatch part v with
    | none => simp [sweepPassAux, hv, hm]
    | some r =>
      by_cases hp : p v r = true <;>
        simp [sweepPassAux, hv, hm, hp, ih _ hrest hu]

theorem sweepStore_fail_mid (p : Url → Response → Bool) (fail : Url → Bool) :
    ∀ (pre : CacheStore) (nm : String) (part : Partition) (post : CacheStore),
      (∀ c ∈ pre, ((c.2 : Partition).map Prod.fst).Nodup) →
      (∀ c ∈ pre, ∀ v ∈ (c.2 : Partition).map Prod.fst, fail v = false) →
      (sweepPassAux p fail (part.map Prod.fst) part).2 = true →
      sweepStore p fail (pre ++ (nm, part) :: post)
        = pre.map (fun c => (c.1, c.2.filter (fun e => !(p e.1 e.2))))
          ++ (nm, (sweepPassAux p fail (part.map Prod.fst) part).1) :: post := by
  intro pre
  induction pre with
  | nil =>
    intro nm part post _ _ habort
    cases hsa : sweepPassAux p fail (part.map Prod.fst) part with
    | mk part2 b =>
      rw [hsa] at habort
      simp only at habort
      subst habort
      simp [sweepStore, hsa]
  | cons c pre2 ih =>
    intro nm part post hnd hok habort
    have hc_nd := hnd c (List.mem_cons_self c pre2)
    have hc_ok := hok c (List.mem_cons_self c pre2)
    have h1 : sweepPassAux p fail (c.2.map Prod.fst) c.2
        = (c.2.filter (fun e => !(p e.1 e.2)), false) := by
      rw [sweepPassAux_fail_false p fail _ _ hc_ok,
        sweepPassAux_no_fail p (c.2.map Prod.fst) c.2 hc_nd hc_nd (fun _ hu => hu)]
      congr 1
      apply List.filter_congr
      intro e he
      simp [List.mem_map_of_mem Prod.fst he]
    rw [List.cons_append, sweepStore, h1, List.map_cons]
    exact congrArg _ (ih nm part post
      (fun d hd => hnd d (List.mem_cons_of_mem c hd))
      (fun d hd => hok d (List.mem_cons_of_mem c hd)) habort)

/-- C6 (amended): both sweeps catch a per-entry failure at whole-sweep
granularity — the sweep call itself completes and no error escapes — but the
failure ends the pass at the failing entry: partitions before the failing
one are fully swept, deletions already performed on the failing partition's
earlier entries persist, the failing entry and every later entry of that
partition are left as they were at the moment of failure, and every later
partition is left untouched. -/
theorem sweep_failure_aborts (now : Nat) (fail : Url → Bool)
    (pre : CacheStore) (nm : String) (part : Partition) (post : CacheStore)
    (pres : List Url) (u : Url) (posts : List Url)
    (hpre_nd : ∀ c ∈ pre, ((c.2 : Partition).map Prod.fst).Nodup)
    (hpre_ok : ∀ c ∈ pre, ∀ v ∈ (c.2 : Partition).map Prod.fst, fail v = false)
    (hkeys : part.map Prod.fst = pres ++ u :: posts)
    (h1 : ∀ v ∈ pres, fail v = false) (hu : fail u = true) :
    performPeriodicCacheInvalidation now fail (pre ++ (nm, part) :: post)
      = pre.map (fun c => (c.1, c.2.filter (fun e => !(staleByAge now e.2))))
        ++ (nm, (sweepPassAux (fun _ r => staleByAge now r)
              (fun _ => false) pres part).1) :: post
    ∧ performPeriodicSignatureInvalidation now fail (pre ++ (nm, part) :: post)
      = pre.map (fun c => (c.1, c.2.filter (fun e => !(sigMismatch now e.1 e.2))))
        ++ (nm, (sweepPassAux (sigMismatch now) (fun _ => false) pres part).1)
          :: post := by
  have key : ∀ p : Url → Response → Bool,
      sweepStore p fail (pre ++ (nm, part) :: post)
        = pre.map (fun c => (c.1, c.2.filter (fun e => !(p e.1 e.2))))
          ++ (nm, (sweepPassAux p (fun _ => false) pres part).1) :: post := by
    intro p
    have hmid := sweepPassAux_fail_mid p fail pres u posts part h1 hu
    have habort : (sweepPassAux p fail (part.map Prod.fst) part).2 = true := by
      rw [hkeys, hmid]
    rw [sweepStore_fail_mid p fail pre nm part post hpre_nd hpre_ok habort,
      hkeys, hmid]
  exact ⟨key _, key _⟩

/-- Witness for C6's amended statement at a failure striking mid-pass: the
partition before the failing one is fully swept, the failing partition keeps
the deletion of its first (already processed) entry while its failing and
later entries survive, and the partition after it is untouched. -/
theorem sweep_failure_aborts_witness :
    performPeriodicCacheInvalidation (2 * maxCacheAge) (fun v => v == "k2")
        ([("s", [("k0", sampleStaleA)])]
          ++ ("d", [("k1", sampleStaleA), ("k2", sampleStaleB),
                ("k3", sampleStaleA)]) :: [("t", [("k4", sampleStaleB)])])
      = [("s", [("k0", sampleStaleA)])].map
          (fun c => (c.1, c.2.filter
            (fun e => !(staleByAge (2 * maxCacheAge) e.2))))
        ++ ("d", (sweepPassAux (fun _ r => staleByAge (2 * maxCacheAge) r)
              (fun _ => false) ["k1"]
              [("k1", sampleStaleA), ("k2", sampleStaleB),
                ("k3", sampleStaleA)]).1) :: [("t", [("k4", sampleStaleB)])]
    ∧ performPeriodicSignatureInvalidation (2 * maxCacheAge) (fun v => v == "k2")
        ([("s", [("k0", sampleStaleA)])]
          ++ ("d", [("k1", sampleStaleA), ("k2", sampleStaleB),
                ("k3", sampleStaleA)]) :: [("t", [("k4", sampleStaleB)])])
      = [("s", [("k0", sampleStaleA)])].map
          (fun c => (c.1, c.2.filter
            (fun e => !(sigMismatch (2 * maxCacheAge) e.1 e.2))))
        ++ ("d", (sweepPassAux (sigMismatch (2 * maxCacheAge))
              (fun _ => false) ["k1"]
              [("k1", sampleStaleA), ("k2", sampleStaleB),
                ("k3", sampleStaleA)]).1) :: [("t", [("k4", sampleStaleB)])] :=
  sweep_failure_aborts (2 * maxCacheAge) (fun v => v == "k2")
    [("s", [("k0", sampleStaleA)])] "d"
    [("k1", sampleStaleA), ("k2", sampleStaleB), ("k3", sampleStaleA)]
    [("t", [("k4", sampleStaleB)])] ["k1"] "k2" ["k3"]
    (by decide) (by decide) rfl (by decide) (by decide)

/-- C7 (counterexample): `UPDATE_CACHE_SIGNATURES` does *not* leave alone
entries whose URL is absent from the map: with map `{"b" ↦ "sig-42"}`, the
entry under `"a"` still has its signature overwritten (with a freshly
computed one) and its timestamp refreshed. -/
theorem updateSignatures_counterexample :
    updateCacheSignatures [("b", "sig-42")] 1 [("p", [("a", sampleOldSigned)])]
      = [("p", [("a", { sampleOldSigned with
          xSignature := some "a_0", xCacheTimestamp := some 1 })])]
    ∧ { sampleOldSigned with xSignature := some "a_0", xCacheTimestamp := some 1 }
      ≠ sampleOldSigned := ⟨rfl, by decide⟩

/-- C7 (amended): `UPDATE_CACHE_SIGNATURES(map)` rewrites *every* cached
entry of every partition: its stored signature becomes the supplied value
when its URL is a key of `map` mapped to a non-empty string, and a freshly
computed signature otherwise (URL absent or mapped to the falsy `""`), and
its timestamp is refreshed in both cases. -/
theorem updateSignatures_rewrites (sigs : List (Url × String)) (now : Nat)
    (store : CacheStore)
    (hnd : ∀ c ∈ store, ((c.2 : Partition).map Prod.fst).Nodup)
    (nm : String) (part : Partition) (hmem : (nm, part) ∈ store)
    (url : Url) (r : Response) (hr : cacheMatch part url = some r) :
    (nm, updateSigPass sigs now (part.map Prod.fst) part)
        ∈ updateCacheSignatures sigs now store
    ∧ cacheMatch (updateSigPass sigs now (part.map Prod.fst) part) url
        = some { r with xSignature := some (sigValueFor sigs url now),
                        xCacheTimestamp := some now } := by
  constructor
  · rw [updateCacheSignatures]
    exact List.mem_map_of_mem _ hmem
  · have hkey : url ∈ part.map Prod.fst :=
      List.mem_map_of_mem Prod.fst (mem_of_cacheMatch hr)
    rw [updateSigPass_cacheMatch sigs now (part.map Prod.fst) part url
      (hnd (nm, part) hmem), if_pos hkey, hr]
    rfl

/-- Witness for C7's amended statement: a supplied map value overwrites the
stored signature of a matching entry. -/
theorem updateSignatures_rewrites_witness :
    ("p", updateSigPass [("a", "sig-42")] 3
        (List.map Prod.fst [("a", sampleOldSigned)]) [("a", sampleOldSigned)])
      ∈ updateCacheSignatures [("a", "sig-42")] 3 [("p", [("a", sampleOldSigned)])]
    ∧ cacheMatch (updateSigPass [("a", "sig-42")] 3
        (List.map Prod.fst [("a", sampleOldSigned)]) [("a", sampleOldSigned)]) "a"
      = some { sampleOldSigned with
          xSignature := some (sigValueFor [("a", "sig-42")] "a" 3),
          xCacheTimestamp := some 3 } := by
  have h := updateSignatures_rewrites [("a", "sig-42")] 3
    [("p", [("a", sampleOldSigned)])] (by decide) "p" [("a", sampleOldSigned)]
    (by simp) "a" sampleOldSigned (by decide)
  exact ⟨h.1, h.2⟩

theorem mem_or_ok_of_mem_cachePut {cache : Partition} {url : Url}
    {w : Response} {e : Url × Response} (he : e ∈ cachePut cache url w)
    (hw : w.ok = true) : e ∈ cache ∨ e.2.ok = true := by
  rcases mem_cachePut he with h1 | h2
  · exact Or.inl h1
  · exact Or.inr (by rw [h2]; exact hw)

/-- C10: across all four fetch policies and all three detached background
refreshes, a delivered non-`ok` response is never written: the partition is
left exactly as it was; and for any fetch outcome whatsoever, every entry of
the resulting partition either was already cached or stores an `ok`
response. -/
theorem nonOk_never_cached (cache : Partition) (url : Url) (now : Nat)
    (nr : Response) (h : nr.ok = false) :
    (handleApiRequestWithCacheBusting (.ok nr) cache url now).2.1 = cache
    ∧ (handleAssetRequestWithSignatureInvalidation (.ok nr) cache url now).2.1 = cache
    ∧ (handleVersionedRequestWithConditionalBypass (.ok nr) cache url now).2.1 = cache
    ∧ (handleDefaultRequestWithStaleWhileRevalidate (.ok nr) cache url now).2.1 = cache
    ∧ refreshCacheInBackground (.ok nr) cache url now = cache
    ∧ updateCacheInBackgroundWithConditionalBypass (.ok nr) cache url now = cache
    ∧ updateCacheInBackground (.ok nr) cache url now = cache
    ∧ (∀ (net : Except String Response) (e : Url × Response),
        e ∈ (handleApiRequestWithCacheBusting net cache url now).2.1 →
          e ∈ cache ∨ e.2.ok = true)
    ∧ (∀ (net : Except String Response) (e : Url × Response),
        e ∈ (handleAssetRequestWithSignatureInvalidation net cache url now).2.1 →
          e ∈ cache ∨ e.2.ok = true)
    ∧ (∀ (net : Except String Response) (e : Url × Response),
        e ∈ (handleVersionedRequestWithConditionalBypass net cache url now).2.1 →
          e ∈ cache ∨ e.2.ok = true)
    ∧ (∀ (net : Except String Response) (e : Url × Response),
        e ∈ (handleDefaultRequestWithStaleWhileRevalidate net cache url now).2.1 →
          e ∈ cache ∨ e.2.ok = true)
    ∧ (∀ (net : Except String Response) (e : Url × Response),
        e ∈ refreshCacheInBackground net cache url now → e ∈ cache ∨ e.2.ok = true)
    ∧ (∀ (net : Except String Response) (e : Url × Response),
        e ∈ updateCacheInBackgroundWithConditionalBypass net cache url now →
          e ∈ cache ∨ e.2.ok = true)
    ∧ (∀ (net : Except String Response) (e : Url × Response),
        e ∈ updateCacheInBackground net cache url now → e ∈ cache ∨ e.2.ok = true) := by
  refine ⟨?_, ?_, ?_, ?_, ?_, ?_, ?_, ?_, ?_, ?_, ?_, ?_, ?_, ?_⟩
  · simp [handleApiRequestWithCacheBusting, h]
  · cases hm : cacheMatch cache url with
    | some cr =>
      by_cases hs : shouldInvalidateCache url cr now = true <;>
        simp [handleAssetRequestWithSignatureInvalidation, hm, hs, h]
    | none => simp [handleAssetRequestWithSignatureInvalidation, hm, h]
  · cases hm : cacheMatch cache url with
    | some cr => simp [handleVersionedRequestWithConditionalBypass, hm]
    | none => simp [handleVersionedRequestWithConditionalBypass, hm, h]
  · cases hm : cacheMatch cache url with
    | some cr => simp [handleDefaultRequestWithStaleWhileRevalidate, hm]
    | none => simp [handleDefaultRequestWithStaleWhileRevalidate, hm, h]
  · simp [refreshCacheInBackground, h]
  · simp [updateCacheInBackgroundWithConditionalBypass, h]
  · simp [updateCacheInBackground, h]
  · intro net e he
    cases net with
    | error msg =>
      cases hm : cacheMatch cache url with
      | some cr =>
        rw [handleApiRequestWithCacheBusting] at he
        simp [hm] at he
        exact Or.inl he
      | none =>
        rw [handleApiRequestWithCacheBusting] at he
        simp [hm] at he
        exact Or.inl he
    | ok nr2 =>
      by_cases hok : nr2.ok = true
      · rw [handleApiRequestWithCacheBusting] at he
        simp [hok] at he
        exact mem_or_ok_of_mem_cachePut he rfl
      · rw [handleApiRequestWithCacheBusting] at he
        simp [hok] at he
        exact Or.inl he
  · intro net e he
    cases hm : cacheMatch cache url with
    | some cr =>
      by_cases hs : shouldInvalidateCache url cr now = true
      · cases net with
        | error msg =>
          simp [handleAssetRequestWithSignatureInvalidation, hm, hs] at he
          exact Or.inl he
        | ok nr2 =>
          by_cases hok : nr2.ok = true
          · simp [handleAssetRequestWithSignatureInvalidation, hm, hs, hok] at he
            exact mem_or_ok_of_mem_cachePut he rfl
          · simp [handleAssetRequestWithSignatureInvalidation, hm, hs, hok] at he
            exact Or.inl he
      · simp [handleAssetRequestWithSignatureInvalidation, hm, hs] at he
        exact Or.inl he
    | none =>
      cases net with
      | error msg =>
        simp [handleAssetRequestWithSignatureInvalidation, hm] at he
        exact Or.inl he
      | ok nr2 =>
        by_cases hok : nr2.ok = true
        · simp [handleAssetRequestWithSignatureInvalidation, hm, hok] at he
          exact mem_or_ok_of_mem_cachePut he rfl
        · simp [handleAssetRequestWithSignatureInvalidation, hm, hok] at he
          exact Or.inl he
  · intro net e he
    cases hm : cacheMatch cache url with
    | some cr =>
      simp [handleVersionedRequestWithConditionalBypass, hm] at he
      exact Or.inl he
    | none =>
      cases net with
      | error msg =>
        simp [handleVersionedRequestWithConditionalBypass, hm] at he
        exact Or.inl he
      | ok nr2 =>
        by_cases hok : nr2.ok = true
        · simp [handleVersionedRequestWithConditionalBypass, hm, hok] at he
          exact mem_or_ok_of_mem_cachePut he rfl
        · simp [handleVersionedRequestWithConditionalBypass, hm, hok] at he
          exact Or.inl he
  · intro net e he
    cases hm : cacheMatch cache url with
    | some cr =>
      simp [handleDefaultRequestWithStaleWhileRevalidate, hm] at he
      exact Or.inl he
    | none =>
      cases net with
      | error msg =>
        simp [handleDefaultRequestWithStaleWhileRevalidate, hm] at he
        exact Or.inl he
      | ok nr2 =>
        by_cases hok : nr2.ok = true
        · simp [handleDefaultRequestWithStaleWhileRevalidate, hm, hok] at he
          exact mem_or_ok_of_mem_cachePut he rfl
        · simp [handleDefaultRequestWithStaleWhileRevalidate, hm, hok] at he
          exact Or.inl he
  · intro net e he
    cases net with
    | error msg => exact Or.inl he
    | ok nr2 =>
      by_cases hok : nr2.ok = true
      · simp [refreshCacheInBackground, hok] at he
        exact mem_or_ok_of_mem_cachePut he rfl
      · simp [refreshCacheInBackground, hok] at he
        exact Or.inl he
  · intro net e he
    cases net with
    | error msg => exact Or.inl he
    | ok nr2 =>
      by_cases hok : nr2.ok = true
      · simp [updateCacheInBackgroundWithConditionalBypass, hok] at he
        exact mem_or_ok_of_mem_cachePut he rfl
      · simp [updateCacheInBackgroundWithConditionalBypass, hok] at he
        exact Or.inl he
  · intro net e he
    cases net with
    | error msg => exact Or.inl he
    | ok nr2 =>
      by_cases hok : nr2.ok = true
      · simp [updateCacheInBackground, hok] at he
        exact mem_or_ok_of_mem_cachePut he rfl
      · simp [updateCacheInBackground, hok] at he
        exact Or.inl he

/-- Witness for C10 at a concrete non-`ok` response: every synchronous path
and every background refresh leaves the partition untouched. -/
theorem nonOk_never_cached_witness :
    (handleApiRequestWithCacheBusting (.ok sampleNonOk)
        [("x", sampleApiCached)] "x" 2).2.1 = [("x", sampleApiCached)]
    ∧ (handleAssetRequestWithSignatureInvalidation (.ok sampleNonOk)
        [("x", sampleApiCached)] "x" 2).2.1 = [("x", sampleApiCached)]
    ∧ (handleVersionedRequestWithConditionalBypass (.ok sampleNonOk)
        [("x", sampleApiCached)] "x" 2).2.1 = [("x", sampleApiCached)]
    ∧ (handleDefaultRequestWithStaleWhileRevalidate (.ok sampleNonOk)
        [("x", sampleApiCached)] "x" 2).2.1 = [("x", sampleApiCached)]
    ∧ refreshCacheInBackground (.ok sampleNonOk)
        [("x", sampleApiCached)] "x" 2 = [("x", sampleApiCached)]
    ∧ updateCacheInBackgroundWithConditionalBypass (.ok sampleNonOk)
        [("x", sampleApiCached)] "x" 2 = [("x", sampleApiCached)]
    ∧ updateCacheInBackground (.ok sampleNonOk)
        [("x", sampleApiCached)] "x" 2 = [("x", sampleApiCached)] := by
  have h := nonOk_never_cached [("x", sampleApiCached)] "x" 2 sampleNonOk rfl
  exact ⟨h.1, h.2.1, h.2.2.1, h.2.2.2.1, h.2.2.2.2.1, h.2.2.2.2.2.1,
    h.2.2.2.2.2.2.1⟩

end Alf
